import Mathlib

/- Shallow embedding of the FinanceCrawler batch ingestion pipeline.
   Sources embedded here:
   - src/batch_crawler/db.py        (sqlite schema: stocks, financial_data, news)
   - src/batch_crawler/config.py    (MAX_WORKERS)
   - src/batch_crawler/crawler.py   (update_stock_list, fetch_and_save_stock_details,
                                     crawl_all_details)
   - src/stock_details_fetcher.py   (get_full_stock_code, get_stock_details)
   - src/fetchers/hk_details_fetcher.py (fetch_hk_stock_details, tuple-returning copy
                                     imported by the crawler)
   - src/data_integrator.py         (get_integrated_stock_details, the cross-process
                                     bridge, and its JSON-extraction scan)
   Database tables are lists of rows; SQLite's INSERT OR IGNORE / INSERT OR REPLACE
   are modelled by their documented conflict behaviour on the declared primary keys.
   The DEFAULT CURRENT_TIMESTAMP column value is passed in explicitly as `now`. -/

/- ## Data model (batch_crawler/db.py, create_tables) -/

/-- Row of the `stocks` table: stock_code TEXT PRIMARY KEY, stock_name, market_type. -/
structure StockRow where
  stock_code : String
  stock_name : String
  market_type : String
  deriving DecidableEq

/-- Row of the `financial_data` table: PRIMARY KEY (stock_code, last_updated),
last_updated TIMESTAMP DEFAULT CURRENT_TIMESTAMP, raw_data TEXT. -/
structure FinRow where
  stock_code : String
  last_updated : Nat
  raw_data : String
  deriving DecidableEq

/-- Row of the `news` table: url TEXT PRIMARY KEY, stock_code, title, publish_time. -/
structure NewsRow where
  url : String
  stock_code : String
  title : String
  publish_time : Int
  deriving DecidableEq

/-- The whole SQLite database state. -/
structure DB where
  stocks : List StockRow
  financial_data : List FinRow
  news : List NewsRow
  deriving DecidableEq

deriving instance DecidableEq for Except

/- ## Store operations -/

/-- `INSERT OR IGNORE INTO stocks (stock_code, stock_name, market_type) VALUES (?,?,?)`
(crawler.py, update_stock_list).  Ignored when the primary key stock_code exists;
second component is `cursor.rowcount` (1 when a row was inserted, 0 when ignored). -/
def insertOrIgnoreStock (db : DB) (code name mtype : String) : DB × Nat :=
  if db.stocks.any (fun s => s.stock_code == code) then (db, 0)
  else ({ db with stocks := db.stocks ++ [⟨code, name, mtype⟩] }, 1)

/-- `INSERT OR REPLACE INTO financial_data (stock_code, raw_data) VALUES (?, ?)`
(crawler.py, fetch_and_save_stock_details).  `last_updated` takes the DEFAULT
CURRENT_TIMESTAMP value, passed here as `now`.  SQLite's OR REPLACE deletes any
existing row that conflicts on the primary key (stock_code, last_updated), then
inserts the new row. -/
def insertOrReplaceFin (db : DB) (code : String) (now : Nat) (raw : String) : DB :=
  let kept := db.financial_data.filter
    (fun r => !(r.stock_code == code && r.last_updated == now))
  { db with financial_data := kept ++ [⟨code, now, raw⟩] }

/-- `INSERT OR IGNORE INTO news (url, stock_code, title, publish_time) VALUES (?,?,?,?)`
(crawler.py, fetch_and_save_stock_details).  Ignored when the primary key url exists;
second component is `cursor.rowcount`. -/
def insertOrIgnoreNews (db : DB) (url code title : String) (pt : Int) : DB × Nat :=
  if db.news.any (fun n => n.url == url) then (db, 0)
  else ({ db with news := db.news ++ [⟨url, code, title, pt⟩] }, 1)

/-- The pending-work query of crawl_all_details (crawler.py):
`SELECT s.stock_code, s.market_type FROM stocks s LEFT JOIN financial_data fd
ON s.stock_code = fd.stock_code WHERE fd.stock_code IS NULL`.
A stocks row appears (once) exactly when it has no matching financial_data row. -/
def pendingStocks (db : DB) : List (String × String) :=
  (db.stocks.filter
      (fun s => !(db.financial_data.any (fun f => f.stock_code == s.stock_code)))).map
    (fun s => (s.stock_code, s.market_type))

/- Shared helper: membership characterisation of the pending query. -/

theorem pending_mem_iff (db : DB) (c m : String) :
    (c, m) ∈ pendingStocks db ↔
      (∃ s ∈ db.stocks, s.stock_code = c ∧ s.market_type = m) ∧
        ∀ f ∈ db.financial_data, f.stock_code ≠ c := by
  unfold pendingStocks
  simp only [List.mem_map, List.mem_filter, Bool.not_eq_true', List.any_eq_false,
    beq_iff_eq, Prod.mk.injEq]
  constructor
  · rintro ⟨s, ⟨hs, hnofin⟩, hc, hm⟩
    refine ⟨⟨s, hs, hc, hm⟩, fun f hf => ?_⟩
    have h := hnofin f hf
    rw [hc] at h
    exact h
  · rintro ⟨⟨s, hs, hc, hm⟩, hnofin⟩
    refine ⟨s, ⟨hs, fun f hf => ?_⟩, hc, hm⟩
    rw [hc]
    exact hnofin f hf

/-- C1: pending-work selection returns exactly the instruments with zero
financial snapshot rows: for every database state and every pair (c, m),
(c, m) is in the list produced by the pending query iff some stocks row
records code c with market_type m and no financial_data row references c. -/
theorem C1_pending_exactly_zero_snapshot (db : DB) (c m : String) :
    (c, m) ∈ pendingStocks db ↔
      (∃ s ∈ db.stocks, s.stock_code = c ∧ s.market_type = m) ∧
        ∀ f ∈ db.financial_data, f.stock_code ≠ c :=
  pending_mem_iff db c m

/-- C2 counterexample: persisting a snapshot for a code at a captured_at that
already has a row replaces that row — the INSERT OR REPLACE write deletes the
existing financial_data row ("600519", 100, "old") when the new snapshot
("600519", 100, "new") is written, refuting "never replaces or deletes". -/
theorem C2_counterexample_same_key_replaces :
    (⟨"600519", 100, "old"⟩ : FinRow) ∈
        (DB.mk [] [⟨"600519", 100, "old"⟩] []).financial_data ∧
      (⟨"600519", 100, "old"⟩ : FinRow) ∉
        (insertOrReplaceFin (DB.mk [] [⟨"600519", 100, "old"⟩] []) "600519" 100
            "new").financial_data := by
  decide

/-- C2 amended: the snapshot write is an insert-or-replace keyed by
(code, captured_at): it removes an existing financial_data row only when that
row has the same stock_code and the same last_updated value; every row with a
different key survives, and the new snapshot row is always present afterwards —
so across successive fetches with distinct capture timestamps a code
accumulates zero or many snapshot rows. -/
theorem C2_fin_write_keyed_replace (db : DB) (c : String) (t : Nat) (raw : String)
    (r : FinRow) (hr : r ∈ db.financial_data)
    (hkey : r.stock_code ≠ c ∨ r.last_updated ≠ t) :
    r ∈ (insertOrReplaceFin db c t raw).financial_data ∧
      (⟨c, t, raw⟩ : FinRow) ∈ (insertOrReplaceFin db c t raw).financial_data := by
  unfold insertOrReplaceFin
  refine ⟨List.mem_append_left _ ?_, List.mem_append_right _ (List.mem_singleton.mpr rfl)⟩
  refine List.mem_filter.mpr ⟨hr, ?_⟩
  simp only [Bool.not_eq_true', Bool.and_eq_false_iff, beq_eq_false_iff_ne, ne_eq]
  rcases hkey with h | h
  · exact Or.inl h
  · exact Or.inr h

/-- C2 amended, witness: a snapshot for "600519" captured at time 200 preserves
the existing row captured at time 100 and adds the new row. -/
theorem C2_fin_write_keyed_replace_witness :
    (⟨"600519", 100, "old"⟩ : FinRow) ∈
        (insertOrReplaceFin (DB.mk [] [⟨"600519", 100, "old"⟩] []) "600519" 200
            "new").financial_data ∧
      (⟨"600519", 200, "new"⟩ : FinRow) ∈
        (insertOrReplaceFin (DB.mk [] [⟨"600519", 100, "old"⟩] []) "600519" 200
            "new").financial_data :=
  C2_fin_write_keyed_replace (DB.mk [] [⟨"600519", 100, "old"⟩] []) "600519" 200 "new"
    ⟨"600519", 100, "old"⟩ (by decide) (Or.inr (by decide))


/- ## External fetcher layer
   (src/stock_details_fetcher.py and src/fetchers/hk_details_fetcher.py).
   The Playwright scraping-and-parsing step is a parameter: in the source it
   sits behind a catch-all `except Exception` and therefore always returns a
   (data, error) pair, never raising.  The code-format helper
   `get_full_stock_code`, by contrast, raises ValueError on an unrecognised
   format; this embedding returns `Except`, with `Except.error` standing for a
   raised, uncaught Python exception. -/

/-- Payload scraped and parsed from the financial-analysis table
(the `parsed_data` dict: headers, all_rows, company_name, industry_name). -/
structure Scraped where
  headers : List String
  all_rows : List (List String)
  company_name : String
  industry_name : String
  deriving DecidableEq

/-- A pandas DataFrame as the crawler sees it: column names plus string rows. -/
structure DataFrame where
  columns : List String
  rows : List (List String)
  deriving DecidableEq

/-- A Python dict payload, flattened to key/value entries.  Only its Python
truthiness (non-emptiness) and its opaque serialised form matter downstream. -/
structure RawData where
  entries : List (String × String)
  deriving DecidableEq

/-- Python truthiness of an optional dict: None and the empty dict are falsy. -/
def rawTruthy : Option RawData → Bool
  | none => false
  | some r => !r.entries.isEmpty

/-- The 8 fallback column names shared by stock_details_fetcher.py and
data_integrator.py. -/
def naColumns : List String :=
  ["指标", "总市值", "净资产", "净利润", "市盈率(动)", "市净率", "毛利率", "ROE"]

/-- `na_df = pd.DataFrame([['N/A'] * 8], columns=[...])` — the failure DataFrame. -/
def na_df : DataFrame := ⟨naColumns, [List.replicate 8 "N/A"]⟩

/-- `empty_raw_data = {'stock_name': 'N/A', 'industry_name': 'N/A',
'comparison_data': {}}` — the failure raw payload (a truthy, non-empty dict). -/
def empty_raw_data : RawData :=
  ⟨[("stock_name", "N/A"), ("industry_name", "N/A"), ("comparison_data", "\x7b\x7d")]⟩

/-- Opaque serialisation of a scraped payload (stands for nesting the parsed
dict inside raw_data; its exact text is never inspected by the pipeline). -/
def encodeScraped (d : Scraped) : String :=
  String.intercalate ";" d.headers ++ "#" ++
    String.intercalate "|" (d.all_rows.map (String.intercalate ","))

/-- The successful A-share raw payload
`{'stock_name': ..., 'industry_name': ..., 'comparison_data': scraped_data}`. -/
def aShareRaw (d : Scraped) : RawData :=
  ⟨[("stock_name", d.company_name), ("industry_name", d.industry_name),
    ("comparison_data", encodeScraped d)]⟩

/-- Python `str.startswith(p)`, computed on the character sequence. -/
def strStartsWith (s p : String) : Bool := p.data.isPrefixOf s.data

/-- Python `str.strip()`: whitespace removed from both ends. -/
def pyStrip (s : String) : String :=
  String.mk (((s.data.dropWhile Char.isWhitespace).reverse.dropWhile
    Char.isWhitespace).reverse)

/-- Python `str.upper()` (ASCII uppercasing, as in the codes handled here). -/
def pyUpper (s : String) : String := String.mk (s.data.map Char.toUpper)

/-- `str(stock_code).strip().upper()` (stock_details_fetcher.get_full_stock_code). -/
def stripUpper (s : String) : String := pyUpper (pyStrip s)

/-- The regex `^(SH|SZ|BJ)\d{6}$` of get_full_stock_code. -/
def matchesFullCode (s : String) : Bool :=
  (strStartsWith s "SH" || strStartsWith s "SZ" || strStartsWith s "BJ") &&
    s.data.length == 8 && (s.data.drop 2).all Char.isDigit

/-- Python `str.startswith(tuple)`. -/
def startsWithAny (s : String) (ps : List String) : Bool := ps.any (strStartsWith s ·)

/-- stock_details_fetcher.get_full_stock_code: prefixes an A-share code with its
exchange tag; RAISES ValueError (modelled as `Except.error`) when the format is
not recognised. -/
def get_full_stock_code (stock_code : String) : Except String String :=
  let code_str := stripUpper stock_code
  if matchesFullCode code_str then Except.ok code_str
  else if startsWithAny code_str ["60", "688", "689"] then Except.ok ("SH" ++ code_str)
  else if startsWithAny code_str ["00", "30"] then Except.ok ("SZ" ++ code_str)
  else if startsWithAny code_str ["8", "4"] then Except.ok ("BJ" ++ code_str)
  else if code_str.data.length == 6 then
    if startsWithAny code_str ["60", "68"] then Except.ok ("SH" ++ code_str)
    else Except.ok ("SZ" ++ code_str)
  else Except.error ("无法识别的股票代码格式: " ++ stock_code)

/-- stock_details_fetcher.get_stock_details: computes the full code (which may
raise — outside any try block), then runs the scrape step `scrape` (which in the
source catches every internal exception and returns data or an error string),
and shapes the (DataFrame, raw_data, error) triple. -/
def get_stock_details (scrape : String → Option Scraped × Option String)
    (stock_code : String) : Except String (DataFrame × RawData × Option String) := do
  let full_code ← get_full_stock_code stock_code
  match scrape full_code with
  | (_, some err) => pure (na_df, empty_raw_data, some err)
  | (none, none) => pure (na_df, empty_raw_data, some "未能从页面解析出完整的财务数据表格")
  | (some d, none) => pure (⟨d.headers, d.all_rows⟩, aShareRaw d, none)

/-- `stock_code.zfill(5)` applied when `len < 5 and stock_code.isdigit()`
(fetchers/hk_details_fetcher.fetch_hk_stock_details). -/
def hkZfill (s : String) : String :=
  if s.data.length < 5 && (!s.data.isEmpty && s.data.all Char.isDigit) then
    String.mk (List.replicate (5 - s.data.length) '0') ++ s
  else s

/-- fetchers/hk_details_fetcher.fetch_hk_stock_details — the tuple-returning
copy the batch crawler imports.  The whole Playwright scrape-and-parse sits
inside `except Exception`, so the HK scrape step `scrape` is total: an error
yields (None, None, error) and success yields (df, parsed_data, None). -/
def fetch_hk_stock_details (scrape : String → Except String Scraped)
    (stock_code : String) : Option DataFrame × Option RawData × Option String :=
  match scrape (hkZfill stock_code) with
  | Except.error e => (none, none, some e)
  | Except.ok d =>
    (some ⟨d.headers, d.all_rows⟩,
     some ⟨[("company_name", d.company_name), ("industry_name", d.industry_name),
            ("table", encodeScraped d)]⟩,
     none)

/-- News article as produced by fetchers/news_fetcher.get_company_news. -/
structure NewsItem where
  title : String
  url : String
  publishTime : Int
  deriving DecidableEq

/-- The three external fetch capabilities a unit of work calls.  `aScrape` and
`hkScrape` are the exception-catching scrape layers described above;
`getNews` models get_company_news, whose body is wrapped in a catch-all
`except Exception` returning `[]`, hence total. -/
structure Fetchers where
  aScrape : String → Option Scraped × Option String
  hkScrape : String → Except String Scraped
  getNews : String → List NewsItem

/-- A call on an external fetcher, recorded for the unit-of-work trace. -/
inductive FetchCall where
  | details (code : String)
  | news (code : String)
  deriving DecidableEq

/-- Result of one unit of work (fetch_and_save_stock_details):
the returned outcome string, the database afterwards, the fetcher calls made,
and how many financial / news rows this unit actually wrote. -/
structure UnitRes where
  result : String
  db : DB
  calls : List FetchCall
  finWrites : Nat
  newsInserted : Nat
  deriving DecidableEq

/-- Step 1 of fetch_and_save_stock_details: the market-dispatched detail fetch
`_, raw_data, details_error = get_a_share_details(...)` / `get_hk_share_details(...)`.
The A-share path goes through get_stock_details and can therefore propagate the
ValueError of get_full_stock_code; the HK path is total. -/
def detailCall (F : Fetchers) (market_type stock_code : String) :
    Except String (Option RawData × Option String) :=
  if market_type = "A-Share" then
    (get_stock_details F.aScrape stock_code).map (fun t => (some t.2.1, t.2.2))
  else
    Except.ok ((fetch_hk_stock_details F.hkScrape stock_code).2.1,
      (fetch_hk_stock_details F.hkScrape stock_code).2.2)

/-- `json.dumps(raw_data, ensure_ascii=False)` — opaque serialisation. -/
def serializeRaw : Option RawData → String
  | none => "null"
  | some r => String.intercalate "&" (r.entries.map (fun p => p.1 ++ "=" ++ p.2))

/-- The news loop of fetch_and_save_stock_details: INSERT OR IGNORE each item,
counting `news_inserted` via rowcount. -/
def insertNewsList (db : DB) (code : String) : List NewsItem → DB × Nat
  | [] => (db, 0)
  | item :: rest =>
    let p := insertOrIgnoreNews db item.url code item.title item.publishTime
    let q := insertNewsList p.1 code rest
    (q.1, p.2 + q.2)

/-- The snapshot-write guard `if raw_data and not details_error` of
fetch_and_save_stock_details; when true, `details_success` is set. -/
def unitWrite (raw_data : Option RawData) (details_error : Option String) : Bool :=
  rawTruthy raw_data && details_error.isNone

/-- The database after step 3's snapshot write (a no-op when the guard is
false). -/
def unitDb1 (now : Nat) (stock_code : String) (db : DB) (raw_data : Option RawData)
    (details_error : Option String) : DB :=
  if unitWrite raw_data details_error then
    insertOrReplaceFin db stock_code now (serializeRaw raw_data)
  else db

/-- Steps 2–4 of fetch_and_save_stock_details after the detail fetch returned
(raw_data, details_error): fetch news, write the snapshot when
`raw_data and not details_error`, insert-or-ignore each news row, and classify
the outcome ("success" iff details_success or news_success, else "failed"). -/
def persistUnit (F : Fetchers) (now : Nat) (stock_code : String) (db : DB)
    (raw_data : Option RawData) (details_error : Option String) : UnitRes :=
  { result :=
      if unitWrite raw_data details_error = true ∨
          (insertNewsList (unitDb1 now stock_code db raw_data details_error)
              stock_code (F.getNews stock_code)).2 ≠ 0
      then "success" else "failed",
    db := (insertNewsList (unitDb1 now stock_code db raw_data details_error)
      stock_code (F.getNews stock_code)).1,
    calls := [FetchCall.details stock_code, FetchCall.news stock_code],
    finWrites := if unitWrite raw_data details_error then 1 else 0,
    newsInserted := (insertNewsList (unitDb1 now stock_code db raw_data details_error)
      stock_code (F.getNews stock_code)).2 }

/-- crawler.fetch_and_save_stock_details: one unit of work for
(stock_code, market_type).  Codes with the policy-excluded "688" lead return
"skipped" before any fetcher runs; otherwise the detail fetch (whose A-share
path may raise), the news fetch, and the database writes run.  `Except.error`
models an exception escaping the function. -/
def fetch_and_save_stock_details (F : Fetchers) (now : Nat)
    (stock_info : String × String) (db : DB) : Except String UnitRes :=
  if strStartsWith stock_info.1 "688" then
    Except.ok { result := "skipped", db := db, calls := [], finWrites := 0,
                newsInserted := 0 }
  else
    match detailCall F stock_info.2 stock_info.1 with
    | Except.error e => Except.error e
    | Except.ok rd => Except.ok (persistUnit F now stock_info.1 db rd.1 rd.2)

/- ## Properties of the per-unit persistence steps -/

theorem insertOrIgnoreNews_fin (db : DB) (url code title : String) (pt : Int) :
    (insertOrIgnoreNews db url code title pt).1.financial_data = db.financial_data := by
  unfold insertOrIgnoreNews
  split <;> rfl

theorem insertOrIgnoreNews_stocks (db : DB) (url code title : String) (pt : Int) :
    (insertOrIgnoreNews db url code title pt).1.stocks = db.stocks := by
  unfold insertOrIgnoreNews
  split <;> rfl

theorem insertOrIgnoreNews_news_len (db : DB) (url code title : String) (pt : Int) :
    (insertOrIgnoreNews db url code title pt).1.news.length =
      db.news.length + (insertOrIgnoreNews db url code title pt).2 := by
  unfold insertOrIgnoreNews
  split
  · rfl
  · simp

theorem insertNewsList_fin (db : DB) (code : String) (items : List NewsItem) :
    (insertNewsList db code items).1.financial_data = db.financial_data := by
  induction items generalizing db with
  | nil => rfl
  | cons item rest ih =>
    simp only [insertNewsList]
    rw [ih]
    exact insertOrIgnoreNews_fin db item.url code item.title item.publishTime

theorem insertNewsList_stocks (db : DB) (code : String) (items : List NewsItem) :
    (insertNewsList db code items).1.stocks = db.stocks := by
  induction items generalizing db with
  | nil => rfl
  | cons item rest ih =>
    simp only [insertNewsList]
    rw [ih]
    exact insertOrIgnoreNews_stocks db item.url code item.title item.publishTime

theorem insertNewsList_news_len (db : DB) (code : String) (items : List NewsItem) :
    (insertNewsList db code items).1.news.length =
      db.news.length + (insertNewsList db code items).2 := by
  induction items generalizing db with
  | nil => rfl
  | cons item rest ih =>
    simp only [insertNewsList]
    rw [ih, insertOrIgnoreNews_news_len]
    omega

theorem insertNewsList_pos_iff (db : DB) (code : String) (items : List NewsItem) :
    0 < (insertNewsList db code items).2 ↔
      ∃ i ∈ items, ∀ n ∈ db.news, n.url ≠ i.url := by
  induction items generalizing db with
  | nil => simp [insertNewsList]
  | cons item rest ih =>
    simp only [insertNewsList]
    by_cases h : db.news.any (fun n => n.url == item.url) = true
    · rw [insertOrIgnoreNews, if_pos h]
      simp only [List.any_eq_true, beq_iff_eq] at h
      obtain ⟨n, hn, hurl⟩ := h
      simp only [Nat.zero_add, ih, List.mem_cons]
      constructor
      · rintro ⟨i, hi, hfresh⟩
        exact ⟨i, Or.inr hi, hfresh⟩
      · rintro ⟨i, hi | hi, hfresh⟩
        · exact absurd hurl (hi ▸ hfresh n hn)
        · exact ⟨i, hi, hfresh⟩
    · rw [insertOrIgnoreNews, if_neg h]
      simp only [Bool.not_eq_true, List.any_eq_false, beq_iff_eq] at h
      constructor
      · intro _
        exact ⟨item, List.mem_cons_self item rest, fun n hn => h n hn⟩
      · intro _
        omega

theorem persistUnit_result_cases (F : Fetchers) (now : Nat) (code : String) (db : DB)
    (raw : Option RawData) (derr : Option String) :
    (persistUnit F now code db raw derr).result = "success" ∨
      (persistUnit F now code db raw derr).result = "failed" := by
  simp only [persistUnit]
  split
  · exact Or.inl rfl
  · exact Or.inr rfl

theorem persistUnit_success_iff (F : Fetchers) (now : Nat) (code : String) (db : DB)
    (raw : Option RawData) (derr : Option String) :
    (persistUnit F now code db raw derr).result = "success" ↔
      0 < (persistUnit F now code db raw derr).finWrites ∨
        0 < (persistUnit F now code db raw derr).newsInserted := by
  simp only [persistUnit]
  by_cases h : unitWrite raw derr = true ∨
      (insertNewsList (unitDb1 now code db raw derr) code (F.getNews code)).2 ≠ 0
  · rw [if_pos h]
    constructor
    · intro _
      rcases h with h | h
      · left
        rw [if_pos h]
        exact Nat.one_pos
      · right
        omega
    · intro _
      rfl
  · rw [if_neg h]
    push_neg at h
    obtain ⟨h1, h2⟩ := h
    constructor
    · intro hs
      exact absurd hs (by decide)
    · rintro (hp | hp)
      · rw [if_neg h1] at hp
        exact absurd hp (by decide)
      · omega

theorem persistUnit_finW_iff (F : Fetchers) (now : Nat) (code : String) (db : DB)
    (raw : Option RawData) (derr : Option String) :
    0 < (persistUnit F now code db raw derr).finWrites ↔ unitWrite raw derr = true := by
  simp only [persistUnit]
  by_cases h : unitWrite raw derr = true
  · rw [if_pos h]
    simp [h]
  · rw [if_neg h]
    simp [h]

theorem persistUnit_fin_of_write (F : Fetchers) (now : Nat) (code : String) (db : DB)
    (raw : Option RawData) (derr : Option String) (h : unitWrite raw derr = true) :
    (⟨code, now, serializeRaw raw⟩ : FinRow) ∈
      (persistUnit F now code db raw derr).db.financial_data := by
  simp only [persistUnit]
  rw [insertNewsList_fin]
  unfold unitDb1
  rw [if_pos h]
  simp only [insertOrReplaceFin]
  exact List.mem_append_right _ (List.mem_singleton.mpr rfl)

theorem persistUnit_fin_of_nowrite (F : Fetchers) (now : Nat) (code : String) (db : DB)
    (raw : Option RawData) (derr : Option String) (h : unitWrite raw derr = false) :
    (persistUnit F now code db raw derr).db.financial_data = db.financial_data := by
  simp only [persistUnit]
  rw [insertNewsList_fin]
  unfold unitDb1
  rw [if_neg (by simp [h])]

theorem persistUnit_stocks (F : Fetchers) (now : Nat) (code : String) (db : DB)
    (raw : Option RawData) (derr : Option String) :
    (persistUnit F now code db raw derr).db.stocks = db.stocks := by
  simp only [persistUnit]
  rw [insertNewsList_stocks]
  unfold unitDb1
  split <;> rfl

theorem unitDb1_news (now : Nat) (code : String) (db : DB) (raw : Option RawData)
    (derr : Option String) : (unitDb1 now code db raw derr).news = db.news := by
  unfold unitDb1
  split <;> rfl

theorem persistUnit_news_len (F : Fetchers) (now : Nat) (code : String) (db : DB)
    (raw : Option RawData) (derr : Option String) :
    (persistUnit F now code db raw derr).db.news.length =
      db.news.length + (persistUnit F now code db raw derr).newsInserted := by
  simp only [persistUnit]
  rw [insertNewsList_news_len, unitDb1_news]

theorem persistUnit_newsPos_iff (F : Fetchers) (now : Nat) (code : String) (db : DB)
    (raw : Option RawData) (derr : Option String) :
    0 < (persistUnit F now code db raw derr).newsInserted ↔
      ∃ i ∈ F.getNews code, ∀ n ∈ db.news, n.url ≠ i.url := by
  simp only [persistUnit]
  rw [insertNewsList_pos_iff, unitDb1_news]

theorem persistUnit_fin_superset (F : Fetchers) (now : Nat) (code : String) (db : DB)
    (raw : Option RawData) (derr : Option String) :
    ∀ f ∈ (persistUnit F now code db raw derr).db.financial_data,
      f ∈ db.financial_data ∨ f.stock_code = code := by
  intro f hf
  simp only [persistUnit] at hf
  rw [insertNewsList_fin] at hf
  unfold unitDb1 at hf
  split at hf
  · simp only [insertOrReplaceFin] at hf
    rcases List.mem_append.mp hf with h | h
    · exact Or.inl (List.mem_filter.mp h).1
    · right
      rw [List.mem_singleton.mp h]
  · exact Or.inl hf

/- ## Unit-of-work level lemmas -/

theorem fetch_skip (F : Fetchers) (now : Nat) (code market : String) (db : DB)
    (h : strStartsWith code "688" = true) :
    fetch_and_save_stock_details F now (code, market) db =
      Except.ok { result := "skipped", db := db, calls := [], finWrites := 0,
                  newsInserted := 0 } := by
  unfold fetch_and_save_stock_details
  simp [h]

theorem fetch_ok_eq (F : Fetchers) (now : Nat) (code market : String) (db : DB)
    (raw : Option RawData) (derr : Option String)
    (hc : strStartsWith code "688" = false)
    (hd : detailCall F market code = Except.ok (raw, derr)) :
    fetch_and_save_stock_details F now (code, market) db =
      Except.ok (persistUnit F now code db raw derr) := by
  unfold fetch_and_save_stock_details
  simp [hc, hd]

/- ## Concrete fetcher fixture used to exercise closed instances -/

/-- A concrete scraped payload: one header column, one data row. -/
def demoScraped : Scraped := ⟨["指标"], [["v"]], "公司", "行业"⟩

/-- A concrete fetcher bundle: the A-share scrape succeeds with demoScraped,
the HK scrape fails with a timeout message, the news fetch returns one
article. -/
def demoFetchers : Fetchers :=
  { aScrape := fun _ => (some demoScraped, none),
    hkScrape := fun _ => Except.error "超时",
    getNews := fun _ => [⟨"标题", "newsurl-1", 5⟩] }

/-- C3: contrary to the claim that every exception inside the detail-fetch
path is caught and converted to one of the outcomes skipped/success/failed,
the A-Share unit of work on the code "12345" (length 5, no recognised
exchange lead) lets the ValueError raised by get_full_stock_code propagate
out of fetch_and_save_stock_details — for every fetcher implementation and
every database state the call evaluates to a raised exception
(Except.error), not to an outcome string. -/
theorem C3_unit_raises_on_unrecognized_code (F : Fetchers) (now : Nat) (db : DB) :
    fetch_and_save_stock_details F now ("12345", "A-Share") db =
      Except.error ("无法识别的股票代码格式: " ++ "12345") := by
  unfold fetch_and_save_stock_details
  rw [if_neg (by decide)]
  have hd : detailCall F "A-Share" "12345" =
      Except.error ("无法识别的股票代码格式: " ++ "12345") := by
    unfold detailCall
    rw [if_pos rfl]
    unfold get_stock_details
    have hg : get_full_stock_code "12345" =
        Except.error ("无法识别的股票代码格式: " ++ "12345") := by decide
    rw [hg]
    rfl
  rw [hd]

/-- C9: a unit of work whose code starts with the policy-excluded "688" lead
returns the outcome "skipped", makes no call on DetailFetcher or NewsFetcher
(the recorded call trace is empty and the result does not depend on the
fetcher bundle at all), writes nothing, and leaves the database unchanged. -/
theorem C9_excluded_688_skipped (F : Fetchers) (now : Nat) (code market : String)
    (db : DB) (h : strStartsWith code "688" = true) :
    fetch_and_save_stock_details F now (code, market) db =
      Except.ok { result := "skipped", db := db, calls := [], finWrites := 0,
                  newsInserted := 0 } :=
  fetch_skip F now code market db h

/-- C9 witness: the unit of work on ("688001", "A-Share") with the demo
fetchers and an empty database is skipped. -/
theorem C9_excluded_688_skipped_witness :
    fetch_and_save_stock_details demoFetchers 0 ("688001", "A-Share") (DB.mk [] [] []) =
      Except.ok { result := "skipped", db := DB.mk [] [] [], calls := [], finWrites := 0,
                  newsInserted := 0 } :=
  C9_excluded_688_skipped demoFetchers 0 "688001" "A-Share" (DB.mk [] [] []) (by decide)

/-- C5: for every non-excluded unit of work whose detail fetch returns a
(raw_data, details_error) pair without raising, the returned outcome is one of
"success"/"failed"; it is "success" iff the unit wrote a financial snapshot
row or newly inserted at least one news row and "failed" iff neither; a
snapshot row is written exactly when the guard `raw_data and not
details_error` (unitWrite) holds, in which case the snapshot row keyed
(code, now) is in the resulting financial_data and otherwise financial_data
is untouched; and the news table grows by exactly the newly inserted rows,
whose count is positive iff some fetched article has a URL not already
stored. -/
theorem C5_outcome_iff_persisted (F : Fetchers) (now : Nat) (code market : String)
    (db : DB) (raw : Option RawData) (derr : Option String) (u : UnitRes)
    (hc : strStartsWith code "688" = false)
    (hd : detailCall F market code = Except.ok (raw, derr))
    (hu : fetch_and_save_stock_details F now (code, market) db = Except.ok u) :
    (u.result = "success" ∨ u.result = "failed") ∧
      (u.result = "success" ↔ 0 < u.finWrites ∨ 0 < u.newsInserted) ∧
      (0 < u.finWrites ↔ unitWrite raw derr = true) ∧
      (unitWrite raw derr = true →
        (⟨code, now, serializeRaw raw⟩ : FinRow) ∈ u.db.financial_data) ∧
      (unitWrite raw derr = false → u.db.financial_data = db.financial_data) ∧
      u.db.news.length = db.news.length + u.newsInserted ∧
      (0 < u.newsInserted ↔ ∃ i ∈ F.getNews code, ∀ n ∈ db.news, n.url ≠ i.url) := by
  rw [fetch_ok_eq F now code market db raw derr hc hd] at hu
  have hu2 : persistUnit F now code db raw derr = u := by injection hu
  subst hu2
  exact ⟨persistUnit_result_cases F now code db raw derr,
    persistUnit_success_iff F now code db raw derr,
    persistUnit_finW_iff F now code db raw derr,
    fun h => persistUnit_fin_of_write F now code db raw derr h,
    fun h => persistUnit_fin_of_nowrite F now code db raw derr h,
    persistUnit_news_len F now code db raw derr,
    persistUnit_newsPos_iff F now code db raw derr⟩

/-- C5 witness: the A-Share unit of work on "600000" with the demo fetchers
and an empty database satisfies the hypotheses, and its outcome is "success"
or "failed". -/
theorem C5_outcome_iff_persisted_witness :
    strStartsWith "600000" "688" = false ∧
      ((persistUnit demoFetchers 7 "600000" (DB.mk [] [] [])
          (some (aShareRaw demoScraped)) none).result = "success" ∨
        (persistUnit demoFetchers 7 "600000" (DB.mk [] [] [])
          (some (aShareRaw demoScraped)) none).result = "failed") :=
  ⟨by decide,
    (C5_outcome_iff_persisted demoFetchers 7 "600000" "A-Share" (DB.mk [] [] [])
      (some (aShareRaw demoScraped)) none
      (persistUnit demoFetchers 7 "600000" (DB.mk [] [] [])
        (some (aShareRaw demoScraped)) none)
      (by decide) (by rfl) (by rfl)).1⟩

/- ## Batch scheduling (crawl_all_details, batch_crawler/config.py) -/

/-- batch_crawler/config.py: `MAX_WORKERS = 3`, the worker-pool width. -/
def MAX_WORKERS : Nat := 3

/-- The batch partition of crawl_all_details:
`[all_stocks[i:i + batch_size] for i in range(0, len(all_stocks), batch_size)]`
— contiguous slices starting at 0, batch_size, 2*batch_size, ... -/
def stockBatches (all_stocks : List (String × String)) (batch_size : Nat) :
    List (List (String × String)) :=
  (List.range ((all_stocks.length + batch_size - 1) / batch_size)).map
    (fun k => (all_stocks.drop (k * batch_size)).take batch_size)

/-- One observable action of the scheduler's batch loop. -/
inductive SchedEvent where
  | runBatch (batch : List (String × String))
  | coolDown (seconds : Nat)
  deriving DecidableEq

/-- The loop `for i, batch in enumerate(stock_batches): <process batch with the
pool>; if i < len(stock_batches) - 1: time.sleep(60)` of crawl_all_details:
a cool-down of 60 seconds follows every batch except the last. -/
def schedTrace (batches : List (List (String × String))) : List SchedEvent :=
  (batches.enum.map (fun p =>
    if p.1 < batches.length - 1 then [SchedEvent.runBatch p.2, SchedEvent.coolDown 60]
    else [SchedEvent.runBatch p.2])).flatten

/-- C6: with concurrency limit MAX_WORKERS = 3 and any pending list of 7
instruments, the scheduler forms exactly 3 contiguous batches of sizes
[3, 3, 1] in list order, and the 60-second cool-down occurs exactly twice:
after batch 1 and after batch 2, not after the last batch. -/
theorem C6_seven_pending_three_batches (a b c d e f g : String × String) :
    stockBatches [a, b, c, d, e, f, g] MAX_WORKERS = [[a, b, c], [d, e, f], [g]] ∧
      (stockBatches [a, b, c, d, e, f, g] MAX_WORKERS).map List.length = [3, 3, 1] ∧
      schedTrace (stockBatches [a, b, c, d, e, f, g] MAX_WORKERS) =
        [SchedEvent.runBatch [a, b, c], SchedEvent.coolDown 60,
         SchedEvent.runBatch [d, e, f], SchedEvent.coolDown 60,
         SchedEvent.runBatch [g]] := by
  have h1 : stockBatches [a, b, c, d, e, f, g] MAX_WORKERS =
      [[a, b, c], [d, e, f], [g]] := by
    simp [stockBatches, MAX_WORKERS, List.range_succ]
  refine ⟨h1, ?_, ?_⟩
  · rw [h1]
    rfl
  · rw [h1]
    rfl

/- ## Catalog refresh (crawler.update_stock_list) -/

/-- One row of a RankingSource DataFrame as consumed by update_stock_list:
`row.get('代码')` and `row.get('名称')` (absent column → none). -/
structure RankRow where
  code : Option String
  name : Option String
  deriving DecidableEq

/-- One entry of the markets dict: `market_info.get('type')` plus the result
of crawl_stock_ranking_data for that market (none = no data returned; the
empty list = an empty DataFrame). -/
structure MarketData where
  market_type : Option String
  df : Option (List RankRow)
  deriving DecidableEq

/-- Python falsiness of the fetched cell (`if not stock_code or not
stock_name: continue`): absent or empty string. -/
def strFalsy : Option String → Bool
  | none => true
  | some s => s.data.isEmpty

/-- The row loop of update_stock_list for one market: rows missing code or
name are skipped (not an error), the rest are INSERT OR IGNOREd, and
`insert_count_for_market` accumulates the rowcounts. -/
def processRows (db : DB) (mtype : String) : List RankRow → DB × Nat
  | [] => (db, 0)
  | r :: rest =>
    if strFalsy r.code || strFalsy r.name then processRows db mtype rest
    else
      let p := insertOrIgnoreStock db (r.code.getD "") (r.name.getD "") mtype
      let q := processRows p.1 mtype rest
      (q.1, p.2 + q.2)

/-- crawler.update_stock_list over the markets dict: a market whose DataFrame
is None or empty is skipped, a market without a defined type is skipped, the
rest are processed row by row; returns the final database and
total_inserted. -/
def update_stock_list (markets : List MarketData) (db : DB) : DB × Nat :=
  match markets with
  | [] => (db, 0)
  | m :: rest =>
    let p := match m.df with
      | none => (db, 0)
      | some rows =>
        if rows.isEmpty then (db, 0)
        else
          match m.market_type with
          | none => (db, 0)
          | some mt => processRows db mt rows
    let q := update_stock_list rest p.1
    (q.1, p.2 + q.2)

/- ## Catalog refresh lemmas -/

theorem insertOrIgnoreStock_mem (db : DB) (c n m : String) (s : StockRow)
    (hs : s ∈ db.stocks) : s ∈ (insertOrIgnoreStock db c n m).1.stocks := by
  unfold insertOrIgnoreStock
  split
  · exact hs
  · exact List.mem_append_left _ hs

theorem insertOrIgnoreStock_hasCode (db : DB) (c n m : String) :
    (insertOrIgnoreStock db c n m).1.stocks.any (fun s => s.stock_code == c) = true := by
  unfold insertOrIgnoreStock
  split
  · assumption
  · simp only [List.any_append, List.any_cons, List.any_nil, Bool.or_false,
      beq_self_eq_true, Bool.or_true]

theorem insertOrIgnoreStock_mono (db : DB) (c n m c' : String)
    (h : db.stocks.any (fun s => s.stock_code == c') = true) :
    (insertOrIgnoreStock db c n m).1.stocks.any (fun s => s.stock_code == c') = true := by
  unfold insertOrIgnoreStock
  split
  · exact h
  · simp only [List.any_append, h, Bool.true_or]

theorem insertOrIgnoreStock_noop (db : DB) (c n m : String)
    (h : db.stocks.any (fun s => s.stock_code == c) = true) :
    insertOrIgnoreStock db c n m = (db, 0) := by
  unfold insertOrIgnoreStock
  rw [if_pos h]

theorem processRows_mem (mt : String) (rows : List RankRow) (db : DB) (s : StockRow)
    (hs : s ∈ db.stocks) : s ∈ (processRows db mt rows).1.stocks := by
  induction rows generalizing db with
  | nil => exact hs
  | cons r rest ih =>
    simp only [processRows]
    split
    · exact ih db hs
    · exact ih _ (insertOrIgnoreStock_mem db _ _ mt s hs)

theorem processRows_mono (mt : String) (rows : List RankRow) (db : DB) (c' : String)
    (h : db.stocks.any (fun s => s.stock_code == c') = true) :
    (processRows db mt rows).1.stocks.any (fun s => s.stock_code == c') = true := by
  induction rows generalizing db with
  | nil => exact h
  | cons r rest ih =>
    simp only [processRows]
    split
    · exact ih db h
    · exact ih _ (insertOrIgnoreStock_mono db _ _ mt c' h)

theorem processRows_covers (mt : String) (rows : List RankRow) (db : DB) :
    ∀ r ∈ rows, (strFalsy r.code || strFalsy r.name) = false →
      (processRows db mt rows).1.stocks.any
        (fun s => s.stock_code == r.code.getD "") = true := by
  induction rows generalizing db with
  | nil => intro r hr; exact absurd hr (List.not_mem_nil r)
  | cons r0 rest ih =>
    intro r hr heff
    rcases List.mem_cons.mp hr with rfl | hr
    · simp only [processRows]
      rw [if_neg (by rw [heff]; exact Bool.false_ne_true)]
      exact processRows_mono mt rest _ _ (insertOrIgnoreStock_hasCode db _ _ mt)
    · simp only [processRows]
      split
      · exact ih db r hr heff
      · exact ih _ r hr heff

theorem processRows_noop (mt : String) (rows : List RankRow) (db : DB)
    (h : ∀ r ∈ rows, (strFalsy r.code || strFalsy r.name) = false →
      db.stocks.any (fun s => s.stock_code == r.code.getD "") = true) :
    processRows db mt rows = (db, 0) := by
  induction rows with
  | nil => rfl
  | cons r0 rest ih =>
    simp only [processRows]
    by_cases heff : (strFalsy r0.code || strFalsy r0.name) = true
    · rw [if_pos heff]
      exact ih (fun r hr he => h r (List.mem_cons_of_mem r0 hr) he)
    · rw [if_neg heff]
      have h0 := h r0 (List.mem_cons_self r0 rest) (Bool.not_eq_true _ ▸ heff)
      rw [insertOrIgnoreStock_noop db _ _ mt h0]
      rw [ih (fun r hr he => h r (List.mem_cons_of_mem r0 hr) he)]
      rfl

/-- Coverage: every effective row (non-empty code and name, in a market with
data and a defined type) already has its code in the stocks table. -/
def coveredMarkets (markets : List MarketData) (db : DB) : Prop :=
  ∀ m ∈ markets, ∀ rows, m.df = some rows → rows.isEmpty = false →
    ∀ mt, m.market_type = some mt →
      ∀ r ∈ rows, (strFalsy r.code || strFalsy r.name) = false →
        db.stocks.any (fun s => s.stock_code == r.code.getD "") = true

theorem update_stock_list_mem (markets : List MarketData) (db : DB) (s : StockRow)
    (hs : s ∈ db.stocks) : s ∈ (update_stock_list markets db).1.stocks := by
  induction markets generalizing db with
  | nil => exact hs
  | cons m rest ih =>
    simp only [update_stock_list]
    cases hdf : m.df with
    | none => exact ih db hs
    | some rows =>
      dsimp only
      by_cases hne : rows.isEmpty
      · rw [if_pos hne]
        exact ih db hs
      · rw [if_neg hne]
        cases hmt : m.market_type with
        | none => exact ih db hs
        | some mt => exact ih _ (processRows_mem mt rows db s hs)

theorem update_stock_list_mono (markets : List MarketData) (db : DB) (c' : String)
    (h : db.stocks.any (fun s => s.stock_code == c') = true) :
    (update_stock_list markets db).1.stocks.any (fun s => s.stock_code == c') = true := by
  induction markets generalizing db with
  | nil => exact h
  | cons m rest ih =>
    simp only [update_stock_list]
    cases hdf : m.df with
    | none => exact ih db h
    | some rows =>
      dsimp only
      by_cases hne : rows.isEmpty
      · rw [if_pos hne]
        exact ih db h
      · rw [if_neg hne]
        cases hmt : m.market_type with
        | none => exact ih db h
        | some mt => exact ih _ (processRows_mono mt rows db c' h)

theorem update_stock_list_covers (markets : List MarketData) (db : DB) :
    coveredMarkets markets (update_stock_list markets db).1 := by
  induction markets generalizing db with
  | nil => intro m hm; exact absurd hm (List.not_mem_nil m)
  | cons m0 rest ih =>
    intro m hm rows hdf hne mt hmt r hr heff
    rcases List.mem_cons.mp hm with rfl | hm
    · simp only [update_stock_list, hdf]
      rw [if_neg (by rw [hne]; exact Bool.false_ne_true), hmt]
      exact update_stock_list_mono rest _ _
        (processRows_covers mt rows db r hr heff)
    · simp only [update_stock_list]
      exact ih _ m hm rows hdf hne mt hmt r hr heff

theorem update_stock_list_noop (markets : List MarketData) (db : DB)
    (h : coveredMarkets markets db) : update_stock_list markets db = (db, 0) := by
  induction markets with
  | nil => rfl
  | cons m0 rest ih =>
    have htail : coveredMarkets rest db :=
      fun m hm => h m (List.mem_cons_of_mem m0 hm)
    have hrest := ih htail
    simp only [update_stock_list]
    cases hdf : m0.df with
    | none =>
      dsimp only
      rw [hrest]
      rfl
    | some rows =>
      dsimp only
      by_cases hne : rows.isEmpty
      · rw [if_pos hne, hrest]
        rfl
      · rw [if_neg hne]
        cases hmt : m0.market_type with
        | none =>
          dsimp only
          rw [hrest]
          rfl
        | some mt =>
          dsimp only
          rw [processRows_noop mt rows db
            (fun r hr heff => h m0 (List.mem_cons_self m0 rest) rows hdf
              (Bool.not_eq_true _ ▸ hne) mt hmt r hr heff)]
          rw [hrest]
          rfl

/-- C7: catalog refresh is idempotent — with the same RankingSource output a
second run of update_stock_list leaves the stocks table exactly as the first
run left it and inserts zero new rows; and refresh never updates a stored row
in place: every existing stocks row (its first-seen name and market_type
included) survives any refresh unchanged. -/
theorem C7_update_stock_list_idempotent (markets : List MarketData) (db : DB) :
    update_stock_list markets (update_stock_list markets db).1 =
        ((update_stock_list markets db).1, 0) ∧
      ∀ s ∈ db.stocks, s ∈ (update_stock_list markets db).1.stocks := by
  constructor
  · exact update_stock_list_noop markets (update_stock_list markets db).1
      (update_stock_list_covers markets db)
  · intro s hs
    exact update_stock_list_mem markets db s hs

/-- C7 witness: a concrete refresh of one A-Share market over a database that
already holds one instrument — the second run is a no-op with zero inserts,
and the pre-existing row survives verbatim. -/
theorem C7_update_stock_list_idempotent_witness :
    (update_stock_list [⟨some "A-Share", some [⟨some "600000", some "浦发银行"⟩]⟩]
        (update_stock_list [⟨some "A-Share", some [⟨some "600000", some "浦发银行"⟩]⟩]
          (DB.mk [⟨"000001", "平安银行", "A-Share"⟩] [] [])).1 =
      ((update_stock_list [⟨some "A-Share", some [⟨some "600000", some "浦发银行"⟩]⟩]
          (DB.mk [⟨"000001", "平安银行", "A-Share"⟩] [] [])).1, 0)) ∧
      (⟨"000001", "平安银行", "A-Share"⟩ : StockRow) ∈
        (update_stock_list [⟨some "A-Share", some [⟨some "600000", some "浦发银行"⟩]⟩]
          (DB.mk [⟨"000001", "平安银行", "A-Share"⟩] [] [])).1.stocks :=
  ⟨(C7_update_stock_list_idempotent
      [⟨some "A-Share", some [⟨some "600000", some "浦发银行"⟩]⟩]
      (DB.mk [⟨"000001", "平安银行", "A-Share"⟩] [] [])).1,
   (C7_update_stock_list_idempotent
      [⟨some "A-Share", some [⟨some "600000", some "浦发银行"⟩]⟩]
      (DB.mk [⟨"000001", "平安银行", "A-Share"⟩] [] [])).2
     ⟨"000001", "平安银行", "A-Share"⟩ (by decide)⟩

/- ## Cross-process bridge: JSON extraction (data_integrator.py) -/

/-- The opening-brace character. -/
def lbrace : Char := Char.ofNat 123

/-- The closing-brace character. -/
def rbrace : Char := Char.ofNat 125

/-- The brace-scanning loop of get_integrated_stock_details: iterate over the
characters of stdout with their indices, tracking `brace_level` and
`json_start`; an opening brace at level 0 records the start; when a closing
brace returns the level to 0 the span (json_start, i + 1) is the result and
the loop breaks; a closing brace at level 0 is ignored; if the scan ends
without rebalancing, no JSON is found. -/
def scanBalanced : List Char → Nat → Nat → Nat → Option (Nat × Nat)
  | [], _, _, _ => none
  | ch :: rest, i, level, start =>
    if ch = lbrace then
      scanBalanced rest (i + 1) (level + 1) (if level = 0 then i else start)
    else if ch = rbrace then
      if 0 < level then
        if level = 1 then some (start, i + 1)
        else scanBalanced rest (i + 1) (level - 1) start
      else scanBalanced rest (i + 1) level start
    else scanBalanced rest (i + 1) level start

/-- `json_str = stdout_str[json_start : i + 1]`, or None when the loop found
no balanced span (the `if not json_str` fallback case). -/
def extract_json (stdout_str : String) : Option String :=
  match scanBalanced stdout_str.data 0 0 0 with
  | none => none
  | some (a, b) => some (String.mk ((stdout_str.data.drop a).take (b - a)))

/-- Signed brace count of one character: +1 for an opening brace, -1 for a
closing brace, 0 otherwise. -/
def braceDelta (ch : Char) : Int :=
  if ch = lbrace then 1 else if ch = rbrace then -1 else 0

/-- Signed brace count of a character list. -/
def braceSum (l : List Char) : Int := (l.map braceDelta).sum

/-- A single well-formed JSON document span at the brace level: it starts
with an opening brace, its total brace count is zero, and every proper
non-empty head slice still has positive count — so its last character is the
first point where the braces rebalance. -/
def BalancedDoc (l : List Char) : Prop :=
  l.head? = some lbrace ∧ braceSum l = 0 ∧
    ∀ k < l.length, 0 < k → 0 < braceSum (l.take k)

theorem braceSum_nil : braceSum [] = 0 := rfl

instance (l : List Char) : Decidable (BalancedDoc l) := by
  unfold BalancedDoc
  infer_instance

theorem braceSum_cons (ch : Char) (l : List Char) :
    braceSum (ch :: l) = braceDelta ch + braceSum l := by
  simp [braceSum]

theorem scanBalanced_skip : ∀ (pre rest : List Char) (i s : Nat),
    (∀ ch ∈ pre, ch ≠ lbrace ∧ ch ≠ rbrace) →
    scanBalanced (pre ++ rest) i 0 s = scanBalanced rest (i + pre.length) 0 s := by
  intro pre
  induction pre with
  | nil =>
    intro rest i s _
    simp
  | cons ch pre ih =>
    intro rest i s hpre
    have h := hpre ch (List.mem_cons_self ch pre)
    simp only [List.cons_append, scanBalanced, List.append_eq]
    rw [if_neg h.1, if_neg h.2]
    rw [ih rest (i + 1) s (fun c hc => hpre c (List.mem_cons_of_mem ch hc))]
    congr 1
    simp only [List.length_cons]
    omega

theorem scanBalanced_close : ∀ (l rest : List Char) (i level s : Nat),
    0 < level →
    braceSum l = -(level : Int) →
    (∀ k < l.length, 0 < k → -(level : Int) < braceSum (l.take k)) →
    scanBalanced (l ++ rest) i level s = some (s, i + l.length) := by
  intro l
  induction l with
  | nil =>
    intro rest i level s hlev hsum _
    rw [braceSum_nil] at hsum
    omega
  | cons ch l ih =>
    intro rest i level s hlev hsum hinner
    rw [braceSum_cons] at hsum
    simp only [List.cons_append, scanBalanced, List.append_eq]
    by_cases hl : ch = lbrace
    · rw [if_pos hl]
      rw [if_neg (by omega : ¬level = 0)]
      have hd : braceDelta ch = 1 := by rw [braceDelta, if_pos hl]
      rw [ih rest (i + 1) (level + 1) s (by omega) (by rw [hd] at hsum; push_cast; omega)
        (fun k hk hk0 => by
          have h := hinner (k + 1) (by simpa using Nat.succ_lt_succ hk) (by omega)
          rw [List.take_succ_cons, braceSum_cons, hd] at h
          push_cast
          omega)]
      rw [(by simp only [List.length_cons]; omega :
        i + 1 + l.length = i + (ch :: l).length)]
    · by_cases hr : ch = rbrace
      · have hd : braceDelta ch = -1 := by rw [braceDelta, if_neg hl, if_pos hr]
        rw [if_neg hl, if_pos hr, if_pos hlev]
        by_cases h1 : level = 1
        · rw [if_pos h1]
          have hnil : l = [] := by
            by_contra hne
            have hlen : 1 < (ch :: l).length := by
              cases l with
              | nil => exact absurd rfl hne
              | cons x xs => simp
            have h := hinner 1 hlen Nat.one_pos
            rw [List.take_succ_cons, List.take_zero, braceSum_cons, braceSum_nil, hd] at h
            omega
          subst hnil
          simp
        · rw [if_neg h1]
          rw [ih rest (i + 1) (level - 1) s (by omega)
            (by rw [hd] at hsum; omega)
            (fun k hk hk0 => by
              have h := hinner (k + 1) (by simpa using Nat.succ_lt_succ hk) (by omega)
              rw [List.take_succ_cons, braceSum_cons, hd] at h
              omega)]
          rw [(by simp only [List.length_cons]; omega :
            i + 1 + l.length = i + (ch :: l).length)]
      · have hd : braceDelta ch = 0 := by rw [braceDelta, if_neg hl, if_neg hr]
        rw [if_neg hl, if_neg hr]
        rw [ih rest (i + 1) level s hlev (by rw [hd] at hsum; omega)
          (fun k hk hk0 => by
            have h := hinner (k + 1) (by simpa using Nat.succ_lt_succ hk) (by omega)
            rw [List.take_succ_cons, braceSum_cons, hd] at h
            omega)]
        rw [(by simp only [List.length_cons]; omega :
          i + 1 + l.length = i + (ch :: l).length)]

/-- C8: on every subprocess output consisting of a single balanced JSON
document surrounded by brace-free diagnostic text, the bridge's extraction
step returns exactly that embedded document: for brace-free `pre`, balanced
`doc` and arbitrary `post`, scanning `pre ++ doc ++ post` yields `doc`. -/
theorem C8_extract_json_embedded_doc (pre doc post : List Char)
    (hpre : ∀ ch ∈ pre, ch ≠ lbrace ∧ ch ≠ rbrace)
    (hdoc : BalancedDoc doc) :
    extract_json (String.mk (pre ++ doc ++ post)) = some (String.mk doc) := by
  obtain ⟨hhead, hsum, hinner⟩ := hdoc
  obtain ⟨tail, rfl⟩ : ∃ tail, doc = lbrace :: tail := by
    cases doc with
    | nil => exact absurd hhead (by simp)
    | cons ch t =>
      refine ⟨t, ?_⟩
      have : ch = lbrace := by simpa using hhead
      rw [this]
  unfold extract_json
  have hassoc : pre ++ (lbrace :: tail) ++ post = pre ++ ((lbrace :: tail) ++ post) :=
    List.append_assoc pre (lbrace :: tail) post
  have h1 : scanBalanced ((pre ++ (lbrace :: tail) ++ post) : List Char) 0 0 0 =
      some (pre.length, pre.length + 1 + tail.length) := by
    rw [hassoc]
    rw [scanBalanced_skip pre ((lbrace :: tail) ++ post) 0 0 hpre]
    simp only [List.cons_append, scanBalanced, List.append_eq, if_true, Nat.zero_add]
    rw [braceSum_cons] at hsum
    have hd : braceDelta lbrace = 1 := by rw [braceDelta, if_pos rfl]
    rw [hd] at hsum
    rw [scanBalanced_close tail post (pre.length + 1) 1 pre.length
      Nat.one_pos (by omega)
      (fun k hk hk0 => by
        have h := hinner (k + 1) (by simpa using Nat.succ_lt_succ hk) (by omega)
        rw [List.take_succ_cons, braceSum_cons, hd] at h
        omega)]
  rw [h1]
  dsimp only
  have hdrop : List.drop pre.length (pre ++ (lbrace :: tail) ++ post) =
      (lbrace :: tail) ++ post := by
    rw [hassoc]
    exact List.drop_left pre ((lbrace :: tail) ++ post)
  have hlen : pre.length + 1 + tail.length - pre.length = (lbrace :: tail).length := by
    simp only [List.length_cons]
    omega
  rw [hdrop, hlen]
  rw [List.take_left (lbrace :: tail) post]

/-- C8 witness: the spec's concrete instance — the output
"garbage-log-line\n{...}\ntrailing" yields exactly the embedded JSON
object. -/
theorem C8_extract_json_embedded_doc_witness :
    extract_json (String.mk ("garbage-log-line\n".data ++
        "\x7b\"dataframe\": null, \"raw_data\": \x7b\x7d, \"error\": \"x\"\x7d".data ++
        "\ntrailing".data)) =
      some "\x7b\"dataframe\": null, \"raw_data\": \x7b\x7d, \"error\": \"x\"\x7d" :=
  C8_extract_json_embedded_doc "garbage-log-line\n".data
    "\x7b\"dataframe\": null, \"raw_data\": \x7b\x7d, \"error\": \"x\"\x7d".data
    "\ntrailing".data (by decide) (by decide)

/- ## Cross-process single-lookup bridge (src/data_integrator.py,
   get_integrated_stock_details) -/

/-- The decoded views of the subprocess's raw stdout bytes: `utf8 = some s`
exactly when the bytes decode as UTF-8 (to s), plus the gbk errors-ignore
decoding, which never fails. -/
structure DecodedBytes where
  utf8 : Option String
  gbk : String
  deriving DecidableEq

/-- Outcome of `subprocess.run(..., timeout=90)`: either the timeout fired,
or the process completed with a return code, stdout bytes and stderr text. -/
inductive ProcOutcome where
  | timeout
  | completed (returncode : Int) (stdout : DecodedBytes) (stderr : String)
  deriving DecidableEq

/-- The manual decode step of the bridge: try utf-8 first; on
UnicodeDecodeError fall back to gbk with errors='ignore'. -/
def decodeStdout (out : DecodedBytes) : String :=
  match out.utf8 with
  | some s => s
  | none => out.gbk

/-- The fields the bridge reads out of the parsed JSON document:
`result.get('dataframe')`, `result.get('raw_data', {})`,
`result.get('error')`. -/
structure BridgeDoc where
  dataframe : Option String
  raw_data : RawData
  error : Option String
  deriving DecidableEq

/-- External library behaviour the bridge composes with: `json.loads`
(none = json.JSONDecodeError, which the bridge catches),
`pd.read_json(..., orient='split')` on the documents exercised here, and
get_company_news. -/
structure BridgeEnv where
  loads : String → Option BridgeDoc
  read_json : String → DataFrame
  news : String → List NewsItem

/-- The result dict of get_integrated_stock_details. -/
structure BridgeResult where
  financial_data : Option DataFrame
  financial_raw_data : RawData
  error_msg : Option String
  news_data : List NewsItem
  details_url : Option String
  deriving DecidableEq

/-- `financial_raw_data.get('comparison_data', {}).get('url') or
financial_raw_data.get('url')`, on the flattened dict model: a lookup of the
"url" key (the fallback payload stores none). -/
def detailsUrl (r : RawData) : Option String :=
  (r.entries.find? (fun p => p.1 == "url")).map (fun p => p.2)

/-- The tail of the bridge after `result = json.loads(json_str)` succeeded:
read the dataframe when the key is present and truthy, take raw_data and
error from the document, synthesise the missing-data message when both
dataframe and error are absent, and substitute the N/A fallback pair when the
dataframe is absent. -/
def bridgeShape (env : BridgeEnv) (stock_code : String) (doc : BridgeDoc) :
    BridgeResult :=
  let fdf : Option DataFrame :=
    match doc.dataframe with
    | some s => if s.data.isEmpty then none else some (env.read_json s)
    | none => none
  let err1 : Option String :=
    if fdf.isNone && strFalsy doc.error then some "未能获取有效数据。" else doc.error
  let pair : Option DataFrame × RawData :=
    if fdf.isNone then (some na_df, empty_raw_data) else (fdf, doc.raw_data)
  { financial_data := pair.1, financial_raw_data := pair.2, error_msg := err1,
    news_data := env.news stock_code, details_url := detailsUrl pair.2 }

/-- data_integrator.get_integrated_stock_details, given the market-type
lookup result and the subprocess outcome.  An unknown market type returns
early; a timeout is caught and produces the fallback; a non-zero exit with
empty decoded stdout returns the fallback early; an output without an
extractable JSON span returns the fallback early; a json.loads failure is
caught into the fallback; otherwise the parsed document is shaped.  Every
branch is a returned value — the dict always reaches the caller. -/
def get_integrated_stock_details (env : BridgeEnv) (market_type : Option String)
    (stock_code : String) (pr : ProcOutcome) : BridgeResult :=
  match market_type with
  | none =>
    { financial_data := some na_df, financial_raw_data := empty_raw_data,
      error_msg := some "未知的市场类型", news_data := [], details_url := none }
  | some _ =>
    match pr with
    | ProcOutcome.timeout =>
      { financial_data := some na_df, financial_raw_data := empty_raw_data,
        error_msg := some "获取财务数据超时", news_data := env.news stock_code,
        details_url := detailsUrl empty_raw_data }
    | ProcOutcome.completed rc out se =>
      if rc ≠ 0 ∧ (decodeStdout out).data.isEmpty = true then
        { financial_data := some na_df, financial_raw_data := empty_raw_data,
          error_msg := some (if se.data.isEmpty then "子进程执行失败或无返回。"
            else "子进程执行失败或无返回。 错误信息: " ++ se),
          news_data := env.news stock_code, details_url := none }
      else
        match extract_json (decodeStdout out) with
        | none =>
          { financial_data := some na_df, financial_raw_data := empty_raw_data,
            error_msg := some "无法从子进程输出中提取有效的JSON数据。",
            news_data := env.news stock_code, details_url := none }
        | some json_str =>
          match env.loads json_str with
          | none =>
            { financial_data := some na_df, financial_raw_data := empty_raw_data,
              error_msg := some "处理财务数据子进程时出错",
              news_data := env.news stock_code,
              details_url := detailsUrl empty_raw_data }
          | some doc => bridgeShape env stock_code doc

/-- A subprocess JSON document used for closed bridge instances. -/
def cDemoJson : String := "\x7b\"dataframe\": \"D\", \"raw_data\": \x7b\x7d, \"error\": null\x7d"

/-- Decoded-by-gbk stdout text holding cDemoJson amid diagnostic noise. -/
def cDemoOut : String := "log-line\n" ++ cDemoJson ++ "\n"

/-- A concrete bridge environment: json.loads recognises cDemoJson, read_json
produces a one-cell table, news is empty. -/
def cDemoEnv : BridgeEnv :=
  { loads := fun s => if s == cDemoJson then some ⟨some "D", ⟨[]⟩, none⟩ else none,
    read_json := fun _ => ⟨["c"], [["v"]]⟩,
    news := fun _ => [] }

/-- C4 counterexample: an output decode failure (stdout bytes that are not
valid UTF-8) does not produce the deterministic N/A fallback with a non-null
error: the bridge silently re-decodes with gbk errors-ignore and continues,
and when that text carries a valid document with a dataframe and a null error
the returned result has a null error message and a non-fallback table. -/
theorem C4_counterexample_decode_failure_no_fallback :
    (get_integrated_stock_details cDemoEnv (some "A-Share") "600000"
        (ProcOutcome.completed 0 ⟨none, cDemoOut⟩ "")).error_msg = none ∧
      (get_integrated_stock_details cDemoEnv (some "A-Share") "600000"
        (ProcOutcome.completed 0 ⟨none, cDemoOut⟩ "")).financial_data ≠
        some na_df := by
  decide

/-- C4 amended: of the claimed failure modes, subprocess timeout, an output
with no extractable JSON document, and a non-zero exit with empty output each
produce the deterministic fallback — the N/A financial record, the N/A raw
payload and a non-null error message — and every branch of the bridge returns
a result object rather than raising; but a primary-encoding decode failure
alone is not such a mode: it falls back to the lossy secondary decoding and
continues normal processing (per the counterexample). -/
theorem C4_bridge_failure_modes_fallback (env : BridgeEnv) (mt stock_code : String)
    (pr : ProcOutcome)
    (h : pr = ProcOutcome.timeout ∨
      (∃ rc out se, pr = ProcOutcome.completed rc out se ∧
        rc ≠ 0 ∧ (decodeStdout out).data.isEmpty = true) ∨
      (∃ rc out se, pr = ProcOutcome.completed rc out se ∧
        ¬(rc ≠ 0 ∧ (decodeStdout out).data.isEmpty = true) ∧
        extract_json (decodeStdout out) = none)) :
    (get_integrated_stock_details env (some mt) stock_code pr).financial_data =
        some na_df ∧
      (get_integrated_stock_details env (some mt) stock_code pr).financial_raw_data =
        empty_raw_data ∧
      (get_integrated_stock_details env (some mt) stock_code pr).error_msg ≠ none := by
  rcases h with rfl | ⟨rc, out, se, rfl, hrc, hemp⟩ | ⟨rc, out, se, rfl, hne, hext⟩
  · exact ⟨rfl, rfl, fun hc => Option.noConfusion hc⟩
  · unfold get_integrated_stock_details
    dsimp only
    rw [if_pos ⟨hrc, hemp⟩]
    exact ⟨rfl, rfl, fun hc => Option.noConfusion hc⟩
  · unfold get_integrated_stock_details
    dsimp only
    rw [if_neg hne, hext]
    exact ⟨rfl, rfl, fun hc => Option.noConfusion hc⟩

/-- C4 amended, witness: the timeout instance at a concrete environment. -/
theorem C4_bridge_failure_modes_fallback_witness :
    (get_integrated_stock_details cDemoEnv (some "A-Share") "600000"
        ProcOutcome.timeout).financial_data = some na_df ∧
      (get_integrated_stock_details cDemoEnv (some "A-Share") "600000"
        ProcOutcome.timeout).financial_raw_data = empty_raw_data ∧
      (get_integrated_stock_details cDemoEnv (some "A-Share") "600000"
        ProcOutcome.timeout).error_msg ≠ none :=
  C4_bridge_failure_modes_fallback cDemoEnv "A-Share" "600000" ProcOutcome.timeout
    (Or.inl rfl)

/- ## The full pending run (crawl_all_details worker loop) -/

/-- Sequential model of dispatching every pending unit through
fetch_and_save_stock_details, threading the database and collecting the
outcome strings in order; a raised exception (Except.error) aborts the run,
as a worker exception surfaces through Pool.imap_unordered. -/
def processPending (F : Fetchers) (now : Nat) :
    List (String × String) → DB → Except String (List String × DB)
  | [], db => Except.ok ([], db)
  | s :: rest, db =>
    match fetch_and_save_stock_details F now s db with
    | Except.error e => Except.error e
    | Except.ok u =>
      match processPending F now rest u.db with
      | Except.error e => Except.error e
      | Except.ok p => Except.ok (u.result :: p.1, p.2)

/-- crawl_all_details: select the pending set of the current database state
and run every unit of work over it. -/
def crawl_all_details (F : Fetchers) (now : Nat) (db : DB) :
    Except String (List String × DB) :=
  processPending F now (pendingStocks db) db

theorem fetch_ok_cases (F : Fetchers) (now : Nat) (s : String × String) (db : DB)
    (u : UnitRes) (h : fetch_and_save_stock_details F now s db = Except.ok u) :
    u.db.stocks = db.stocks ∧
      (∀ f ∈ u.db.financial_data, f ∈ db.financial_data ∨ f.stock_code = s.1) ∧
      (u.result = "skipped" ↔ strStartsWith s.1 "688" = true) := by
  unfold fetch_and_save_stock_details at h
  by_cases hc : strStartsWith s.1 "688" = true
  · rw [if_pos hc] at h
    injection h with h
    refine ⟨by rw [← h], fun f hf => Or.inl (by rw [← h] at hf; exact hf), ?_⟩
    constructor
    · intro _
      exact hc
    · intro _
      rw [← h]
  · rw [if_neg hc] at h
    cases hd : detailCall F s.2 s.1 with
    | error e =>
      rw [hd] at h
      exact absurd h (by simp)
    | ok rd =>
      rw [hd] at h
      injection h with h
      refine ⟨by rw [← h]; exact persistUnit_stocks F now s.1 db rd.1 rd.2,
        fun f hf => by
          rw [← h] at hf
          exact persistUnit_fin_superset F now s.1 db rd.1 rd.2 f hf, ?_⟩
      constructor
      · intro hres
        rw [← h] at hres
        rcases persistUnit_result_cases F now s.1 db rd.1 rd.2 with hr | hr <;>
          rw [hr] at hres <;> exact absurd hres (by decide)
      · intro hc688
        exact absurd hc688 hc

theorem processPending_spec (F : Fetchers) (now : Nat) :
    ∀ (l : List (String × String)) (db : DB) (results : List String) (db2 : DB),
    processPending F now l db = Except.ok (results, db2) →
    db2.stocks = db.stocks ∧
      (∀ f ∈ db2.financial_data, f ∈ db.financial_data ∨
        ∃ p ∈ l, strStartsWith p.1 "688" = false ∧ f.stock_code = p.1) ∧
      results.length = l.length ∧
      results.count "skipped" = l.countP (fun p => strStartsWith p.1 "688") := by
  intro l
  induction l with
  | nil =>
    intro db results db2 h
    injection h with h
    obtain ⟨h1, h2⟩ := Prod.mk.injEq .. ▸ h
    subst h1
    subst h2
    exact ⟨rfl, fun f hf => Or.inl hf, rfl, rfl⟩
  | cons s rest ih =>
    intro db results db2 h
    simp only [processPending] at h
    cases hu : fetch_and_save_stock_details F now s db with
    | error e =>
      rw [hu] at h
      exact absurd h (by simp)
    | ok u =>
      rw [hu] at h
      dsimp only at h
      cases hp : processPending F now rest u.db with
      | error e =>
        rw [hp] at h
        exact absurd h (by simp)
      | ok p =>
        rw [hp] at h
        dsimp only at h
        injection h with h
        obtain ⟨h1, h2⟩ := Prod.mk.injEq .. ▸ h
        subst h1
        subst h2
        obtain ⟨hstU, hfinU, hskipU⟩ := fetch_ok_cases F now s db u hu
        obtain ⟨hstR, hfinR, hlenR, hcntR⟩ := ih u.db p.1 p.2 hp
        refine ⟨by rw [hstR, hstU], ?_, ?_, ?_⟩
        · intro f hf
          rcases hfinR f hf with hin | ⟨q, hq, hq688, hqc⟩
          · rcases hfinU f hin with hin2 | hcode
            · exact Or.inl hin2
            · by_cases h688 : strStartsWith s.1 "688" = true
              · -- a skipped unit leaves the database untouched, so f was in db
                have hskip := fetch_skip F now s.1 s.2 db h688
                rw [(by exact rfl : (s.1, s.2) = s)] at hskip
                rw [hskip] at hu
                injection hu with hu
                rw [← hu] at hin
                exact Or.inl hin
              · exact Or.inr ⟨s, List.mem_cons_self s rest,
                  Bool.not_eq_true _ ▸ h688, hcode⟩
          · exact Or.inr ⟨q, List.mem_cons_of_mem s hq, hq688, hqc⟩
        · simp only [List.length_cons, hlenR]
        · rw [List.count_cons, List.countP_cons, hcntR]
          by_cases h688 : strStartsWith s.1 "688" = true
          · rw [if_pos (by simpa using hskipU.mpr h688), if_pos (by simpa using h688)]
          · rw [if_neg (by simpa using fun hres => h688 (hskipU.mp hres)),
              if_neg (by simpa using h688)]

/-- C10: an instrument with the excluded "688" lead never leaves the pending
set: whenever (c, m) is selected as pending and a full run over the pending
set completes, the run leaves the stocks table unchanged and writes no
financial_data row referencing c, so (c, m) still satisfies the zero-snapshot
pending predicate and is selected again by the next run; and the run's
skipped tally equals the number of 688-excluded pending entries, so c is
re-counted as skipped on every run. -/
theorem C10_excluded_stays_pending (F : Fetchers) (now : Nat) (db : DB)
    (c m : String) (results : List String) (db2 : DB)
    (hc : strStartsWith c "688" = true)
    (hmem : (c, m) ∈ pendingStocks db)
    (hrun : processPending F now (pendingStocks db) db = Except.ok (results, db2)) :
    (c, m) ∈ pendingStocks db2 ∧
      db2.stocks = db.stocks ∧
      results.count "skipped" =
        (pendingStocks db).countP (fun p => strStartsWith p.1 "688") := by
  obtain ⟨hstocks, hfin, hlen, hcount⟩ :=
    processPending_spec F now (pendingStocks db) db results db2 hrun
  obtain ⟨⟨s, hs, hsc, hsm⟩, hnofin⟩ := (pending_mem_iff db c m).mp hmem
  refine ⟨?_, hstocks, hcount⟩
  refine (pending_mem_iff db2 c m).mpr ⟨⟨s, by rw [hstocks]; exact hs, hsc, hsm⟩, ?_⟩
  intro f hf heq
  rcases hfin f hf with hin | ⟨p, _, hp688, hpc⟩
  · exact hnofin f hin heq
  · rw [hpc] at heq
    rw [heq] at hp688
    rw [hc] at hp688
    exact Bool.noConfusion hp688

/-- C10 witness: a database holding the single pending instrument
("688001", "A-Share"); the run completes with the tally ["skipped"], the
database is unchanged, and the instrument is pending again. -/
theorem C10_excluded_stays_pending_witness :
    ("688001", "A-Share") ∈
        pendingStocks (DB.mk [⟨"688001", "科创股", "A-Share"⟩] [] []) ∧
      (DB.mk [⟨"688001", "科创股", "A-Share"⟩] [] []).stocks =
        (DB.mk [⟨"688001", "科创股", "A-Share"⟩] [] []).stocks ∧
      (["skipped"] : List String).count "skipped" =
        (pendingStocks (DB.mk [⟨"688001", "科创股", "A-Share"⟩] [] [])).countP
          (fun p => strStartsWith p.1 "688") :=
  C10_excluded_stays_pending demoFetchers 0
    (DB.mk [⟨"688001", "科创股", "A-Share"⟩] [] []) "688001" "A-Share"
    ["skipped"] (DB.mk [⟨"688001", "科创股", "A-Share"⟩] [] [])
    (by decide) (by decide) (by decide)
